import Mathlib

/-!
Shallow embedding of the FastMCP resource layer
(`src/mcp/server/fastmcp/resources/base.py` and
`src/mcp/server/fastmcp/resources/templates.py`), together with theorems
checking the natural-language specification against it.

Python values that can flow through resource parameters are modelled by
the inductive type `Value`; exceptions by `Err` (a kind string such as
"ValueError" plus a message).  Fallible Python code is embedded as
`Except Err` results.  Collaborators of the two source files that are not
part of the excerpt (the pydantic URL parser, the schema engine
`func_metadata`, `find_context_parameter`, and the `FunctionResource`
variant) are modelled from the specification's description of their
interface; each such definition is marked `Modelled from the spec`.
-/

namespace Mcp

/-- A Python value as seen by this layer: `None`, strings, numbers, and
opaque live objects (non-serializable data such as a session context). -/
inductive Value where
  | vnone
  | vstr (s : String)
  | vnat (n : Nat)
  | vopaque (id : Nat)
  deriving DecidableEq, Repr

/-- A Python exception: its class name (kind) and its message (`str(e)`). -/
structure Err where
  kind : String
  msg : String
  deriving DecidableEq, Repr

/-! ## URI template compilation and matching

`ResourceTemplate.matches` (templates.py lines 86-93) compiles the
template by textual substitution `{ -> (?P<` and `} -> >[^/]+)` and runs
Python `re.match` against `^pattern$`.  The embedding tokenizes the
template into literal characters, `.` wildcards and `{name}` placeholders.
Templates whose literal text uses other regex metacharacters, an invalid
group name, unbalanced braces, or a duplicated placeholder name make
`re.compile`/`re.match` raise or change meaning; the tokenizer maps those
templates to `none`, putting them outside the modelled domain. -/

/-- One token of a compiled URI template. -/
inductive Tok where
  | lit (c : Char)
  | dot
  | ph (name : String)
  deriving DecidableEq, Repr

/-- Regex metacharacters of Python `re` (braces are handled separately,
since `matches` rewrites them before compiling). -/
def isRegexSpecial (c : Char) : Bool :=
  c = '.' || c = '^' || c = '$' || c = '*' || c = '+' || c = '?' ||
  c = '[' || c = ']' || c = '\\' || c = '|' || c = '(' || c = ')'

def isIdentStart (c : Char) : Bool := c.isAlpha || c = '_'

def isIdentChar (c : Char) : Bool := c.isAlphanum || c = '_'

/-- Valid Python group name (ASCII identifier). -/
def isIdent (s : String) : Bool :=
  match s.data with
  | [] => false
  | c :: cs => isIdentStart c && cs.all isIdentChar

/-- Tokenize the template text.  The first argument is `none` in ordinary
text and `some acc` inside a `{...}` placeholder, `acc` holding the name
characters read so far in reverse. -/
def tokenizeGo : Option (List Char) → List Char → Option (List Tok)
  | none, [] => some []
  | none, c :: cs =>
    if c = '{' then tokenizeGo (some []) cs
    else if c = '}' then none
    else if c = '.' then (tokenizeGo none cs).map (fun ts => Tok.dot :: ts)
    else if isRegexSpecial c then none
    else (tokenizeGo none cs).map (fun ts => Tok.lit c :: ts)
  | some _, [] => none
  | some acc, c :: cs =>
    if c = '}' then
      let nm := String.mk acc.reverse
      if isIdent nm then (tokenizeGo none cs).map (fun ts => Tok.ph nm :: ts)
      else none
    else tokenizeGo (some (c :: acc)) cs

/-- Placeholder names of a token list, in order. -/
def tokNames : List Tok → List String
  | [] => []
  | Tok.ph n :: ts => n :: tokNames ts
  | _ :: ts => tokNames ts

/-- Compile a template string.  Duplicate group names make `re.compile`
raise, so they are excluded from the modelled domain as well. -/
def tokenizeTemplate (t : String) : Option (List Tok) :=
  match tokenizeGo none t.data with
  | some ts => if (tokNames ts).Nodup then some ts else none
  | none => none

/-- Backtracking search for the span of one `[^/]+` capture: try the
lengths `k, k-1, ..., 1` (Python's greedy `+` prefers the longest), accept
a span with no `/`, and continue with `cont` on the rest. -/
def phSplits (n : String) (cont : List Char → Option (List (String × String))) :
    List Char → Nat → Option (List (String × String))
  | _, 0 => none
  | cs, k + 1 =>
    if (cs.take (k + 1)).contains '/' then phSplits n cont cs k
    else
      match cont (cs.drop (k + 1)) with
      | some m => some ((n, String.mk (cs.take (k + 1))) :: m)
      | none => phSplits n cont cs k

/-- Match a token list against the whole character list, returning the
captured placeholder values in template order. -/
def matchToks : List Tok → List Char → Option (List (String × String))
  | [] => fun cs => if cs.isEmpty then some [] else none
  | Tok.lit c :: ts => fun cs =>
      match cs with
      | [] => none
      | d :: cs2 => if c = d then matchToks ts cs2 else none
  | Tok.dot :: ts => fun cs =>
      match cs with
      | [] => none
      | d :: cs2 => if d = '\n' then none else matchToks ts cs2
  | Tok.ph n :: ts => fun cs => phSplits n (matchToks ts) cs cs.length

/-- Python's `$` matches at the end of the string or just before one
trailing newline, so `re.match("^P$", s)` succeeds on `s` or, when `s`
ends in a newline, on `s` without it. -/
def matchChars (ts : List Tok) (cs : List Char) : Option (List (String × String)) :=
  match matchToks ts cs with
  | some m => some m
  | none =>
    match cs.getLast? with
    | some c => if c = '\n' then matchToks ts cs.dropLast else none
    | none => none

/-- String-level embedding of `ResourceTemplate.matches` (templates.py
lines 86-93): the result is the `groupdict` of the anchored match, or
`none` when there is no match. -/
def matchesTemplate (uriTemplate uri : String) : Option (List (String × String)) :=
  match tokenizeTemplate uriTemplate with
  | some ts => matchChars ts uri.data
  | none => none

/-! ## The producer and the external schema engine

Modelled from the spec: the schema/validation engine
(`mcp.server.fastmcp.utilities.func_metadata`, not part of the excerpt)
is, per its interface description, "given a callable and a set of
parameter names to exclude, returns (a) a JSON-Schema-shaped description
of the remaining parameters, and (b) an operation that, given a raw
parameter mapping and an optional side-channel mapping of out-of-band
values (e.g., context), validates/coerces the raw mapping against the
schema and invokes the callable with the merged arguments". -/

/-- A formal parameter of a producer: its name, whether its declared type
is the context capability marker, and the schema engine's
validation/coercion for it (`none` = rejected, e.g. a non-serializable
value offered where data is expected). -/
structure Param where
  pname : String
  isContext : Bool
  coerce : Value → Option Value

/-- Modelled from the spec: a producer callable, as far as this layer
inspects it — declared name, documentation string, formal parameters and
the (possibly failing) body. -/
structure Producer where
  fname : String
  doc : Option String
  params : List Param
  impl : List (String × Value) → Except Err Value
  isAsyncFn : Bool

/-- Modelled from the spec: `find_context_parameter`
(`mcp.server.fastmcp.utilities.context_injection`, not part of the
excerpt) inspects the producer's parameters and picks the one (if any)
whose declared type matches the context capability marker. -/
def find_context_parameter (fn : Producer) : Option String :=
  (fn.params.find? (fun p => p.isContext)).map (fun p => p.pname)

/-- Modelled from the spec: the argument model the schema engine builds
for a callable — the formal parameters that remained after exclusion. -/
structure FuncMetadata where
  schemaParams : List Param

/-- Modelled from the spec: `func_metadata fn skip_names` builds the
argument model from the producer's signature minus the excluded names. -/
def func_metadata (fn : Producer) (skip_names : List String) : FuncMetadata :=
  ⟨fn.params.filter (fun p => !(skip_names.contains p.pname))⟩

/-- Modelled from the spec: `arg_model.model_json_schema()`, reduced to
the property names the schema describes. -/
def FuncMetadata.schemaKeys (m : FuncMetadata) : List String :=
  m.schemaParams.map (fun p => p.pname)

/-- Modelled from the spec: validate and coerce a raw argument mapping
against the schema parameters; a missing or rejected argument fails with
a validation error. -/
def validateArgs : List Param → List (String × Value) → Except Err (List (String × Value))
  | [], _ => .ok []
  | p :: ps, args =>
    match List.lookup p.pname args with
    | none => .error ⟨"ValidationError", "Field required: " ++ p.pname⟩
    | some v =>
      match p.coerce v with
      | none => .error ⟨"ValidationError", "Input should be valid: " ++ p.pname⟩
      | some v2 =>
        match validateArgs ps args with
        | .error e => .error e
        | .ok rest => .ok ((p.pname, v2) :: rest)

/-- Modelled from the spec: `call_fn_with_arg_validation` validates the
raw mapping against the schema, merges the out-of-band side-channel
mapping untouched, and invokes the callable on the merged arguments. -/
def FuncMetadata.call_fn_with_arg_validation (m : FuncMetadata) (fn : Producer)
    (_is_async : Bool) (args : List (String × Value))
    (sideChannel : Option (List (String × Value))) : Except Err Value :=
  match validateArgs m.schemaParams args with
  | .error e => .error e
  | .ok validated => fn.impl (validated ++ sideChannel.getD [])

/-! ## Resource construction (base.py)

`Resource` is a pydantic model; constructing one runs, in field order,
the URL parse of `uri`, the `set_default_name` before-validator of
`name` (base.py lines 43-51) and the `mime_type` pattern check (base.py
line 38), collecting all field errors. -/

/-- After at least one leading scheme character: more scheme characters
and then the `://` separator. -/
def afterScheme : List Char → Bool
  | ':' :: '/' :: '/' :: _ => true
  | c :: cs => c.isAlpha && afterScheme cs
  | [] => false

/-- An absolute URI: a nonempty alphabetic scheme followed by `://`. -/
def isAbsoluteUri (s : String) : Bool :=
  match s.data with
  | c :: cs => c.isAlpha && afterScheme cs
  | [] => false

/-- Modelled from the spec: pydantic's `AnyUrl` with `host_required
= False`, reduced to its interface — an absolute URI (a scheme followed
by `://`) parses and keeps its string form, anything else fails
validation. -/
def parseAnyUrl (s : String) : Except Err String :=
  if isAbsoluteUri s then .ok s
  else .error ⟨"ValidationError", "Input should be a valid URL"⟩

def isMimeChar1 (c : Char) : Bool := c.isAlphanum

def isMimeChar2 (c : Char) : Bool := c.isAlphanum || c = '-' || c = '+' || c = '.'

/-- The subtype part of the MIME pattern: one or more characters from
`[a-zA-Z0-9\-+.]`, then the end. -/
def mimeTail : List Char → Bool
  | [] => false
  | [c] => isMimeChar2 c
  | c :: cs => isMimeChar2 c && mimeTail cs

/-- The remainder of the type part: more `[a-zA-Z0-9]` characters, one
`/`, then the subtype. -/
def mimeAfterFirst : List Char → Bool
  | '/' :: cs => mimeTail cs
  | c :: cs => isMimeChar1 c && mimeAfterFirst cs
  | [] => false

/-- The `mime_type` field pattern of base.py line 38:
`^[a-zA-Z0-9]+/[a-zA-Z0-9\-+.]+$`. -/
def validMimeType (s : String) : Bool :=
  match s.data with
  | c :: cs => isMimeChar1 c && mimeAfterFirst cs
  | [] => false

/-- The name a `Resource` ends up with when the uri validated: a truthy
supplied name, else the uri's string form. -/
def defaultedName (name : Option String) (u : String) : String :=
  match name with
  | some s => if s = "" then u else s
  | none => u

/-- Embedding of `Resource.set_default_name` (base.py lines 43-51): keep a truthy
name; otherwise fall back to the string form of the already-validated
`uri` (pydantic's `info.data` holds it only when its own validation
succeeded); otherwise fail. -/
def set_default_name (name : Option String) (uriData : Option String) : Except Err String :=
  match name with
  | some s =>
    if s ≠ "" then .ok s
    else
      match uriData with
      | some u => .ok u
      | none => .error ⟨"ValueError", "Either name or uri must be provided"⟩
  | none =>
    match uriData with
    | some u => .ok u
    | none => .error ⟨"ValueError", "Either name or uri must be provided"⟩

/-- The validated `Resource` descriptor of base.py lines 26-41 (the `uri`
is kept in its string form; icons and Annotations are opaque here). -/
structure Resource where
  uri : String
  name : String
  title : Option String
  description : Option String
  mime_type : String
  icons : Option (List String)
  annotations : Option String
  deriving DecidableEq, Repr

/-- The single-error list of a field validation result. -/
def errList {α : Type} : Except Err α → List Err
  | .ok _ => []
  | .error e => [e]

/-- Pydantic construction of a `Resource`: run the three fallible field
validations in field order and collect every error; succeed only when
all fields validated. -/
def mkResource (uri : Option String) (name : Option String) (title : Option String)
    (description : Option String) (mime_type : Option String)
    (icons : Option (List String)) (annotations : Option String) :
    Except (List Err) Resource :=
  let uriRes : Except Err String :=
    match uri with
    | none => .error ⟨"ValidationError", "Field required: uri"⟩
    | some s => parseAnyUrl s
  let uriData : Option String := match uriRes with | .ok u => some u | .error _ => none
  let nameRes : Except Err String := set_default_name name uriData
  let mt : String := mime_type.getD "text/plain"
  let mtRes : Except Err String :=
    if validMimeType mt then .ok mt
    else .error ⟨"ValidationError", "String should match pattern: " ++ mt⟩
  match uriRes, nameRes, mtRes with
  | .ok u, .ok n, .ok m =>
    .ok { uri := u, name := n, title, description, mime_type := m, icons, annotations }
  | u, n, m => .error (errList u ++ errList n ++ errList m)

/-- Modelled from the spec: how `str(e)` renders a pydantic
`ValidationError` carrying several field errors. -/
def renderErrors (es : List Err) : String :=
  String.intercalate "; " (es.map (fun e => e.msg))

/-! ## ResourceTemplate (templates.py) -/

/-- Embedding of `ResourceTemplate` (templates.py lines 24-38). -/
structure ResourceTemplate where
  uri_template : String
  name : String
  title : Option String
  description : Option String
  mime_type : String
  icons : Option (List String)
  annotations : Option String
  fn : Producer
  parameters : List String
  context_kwarg : Option String
  fn_metadata : FuncMetadata
  is_async : Bool

/-- Truthiness of a Python `str | None` value: `None` and `""` are falsy. -/
def truthy : Option String → Option String
  | some s => if s = "" then none else some s
  | none => none

/-- Embedding of `ResourceTemplate.from_function` (templates.py lines 40-84): resolve
the name (`name or fn.__name__`, rejecting the lambda sentinel), discover
the context parameter when not given, build the argument schema excluding
it, and default description and MIME type. -/
def ResourceTemplate.from_function (fn : Producer) (uri_template : String)
    (name : Option String) (title : Option String) (description : Option String)
    (mime_type : Option String) (icons : Option (List String))
    (annotations : Option String) (context_kwarg : Option String) :
    Except Err ResourceTemplate :=
  let func_name := (truthy name).getD fn.fname
  if func_name = "<lambda>" then
    .error ⟨"ValueError", "You must provide a name for lambda functions"⟩
  else
    let ck : Option String :=
      match context_kwarg with
      | some k => some k
      | none => find_context_parameter fn
    let func_arg_metadata := func_metadata fn (match ck with | some k => [k] | none => [])
    .ok
      { uri_template
        name := func_name
        title
        description := some ((truthy description).getD ((truthy fn.doc).getD ""))
        mime_type := (truthy mime_type).getD "text/plain"
        icons
        annotations
        fn
        parameters := func_arg_metadata.schemaKeys
        context_kwarg := ck
        fn_metadata := func_arg_metadata
        is_async := fn.isAsyncFn }

/-- Embedding of `ResourceTemplate.matches` (templates.py lines 86-93). -/
def ResourceTemplate.matches (t : ResourceTemplate) (uri : String) :
    Option (List (String × String)) :=
  matchesTemplate t.uri_template uri

/-- Modelled from the spec: the function-backed `Resource` variant
(`FunctionResource`, in `resources/types.py`, not part of the excerpt) —
a validated descriptor plus the stored zero-argument closure
(`lambda: result`) whose call its `read` returns. -/
structure FunctionResource where
  resource : Resource
  fnR : Unit → Value

/-- Modelled from the spec: `read` on the function-backed variant simply
calls the stored closure and yields its value. -/
def FunctionResource.read (r : FunctionResource) : Value :=
  r.fnR ()

/-- The side-channel mapping `create_resource` hands the schema engine:
`{context_kwarg: context}` when a context parameter name is known
(Python's `None` context becoming the value `vnone`), else nothing. -/
def contextSide (t : ResourceTemplate) (context : Option Value) :
    Option (List (String × Value)) :=
  match t.context_kwarg with
  | some k => some [(k, context.getD Value.vnone)]
  | none => none

/-- The uniform wrapper of templates.py line 123:
`ValueError(f"Error creating resource from template: {e}")`. -/
def creationError (e : Err) : Err :=
  ⟨"ValueError", "Error creating resource from template: " ++ e.msg⟩

/-- Embedding of `ResourceTemplate.create_resource` (templates.py lines 95-123): call
the producer through the schema engine with the context passed out of
band, wrap the result in a fresh function-backed resource capturing it in
a closure, and re-signal any failure as the uniform creation error. -/
def ResourceTemplate.create_resource (t : ResourceTemplate) (uri : String)
    (params : List (String × Value)) (context : Option Value) :
    Except Err FunctionResource :=
  let attempt : Except Err FunctionResource :=
    match t.fn_metadata.call_fn_with_arg_validation t.fn t.is_async params
        (contextSide t context) with
    | .error e => .error e
    | .ok result =>
      match mkResource (some uri) (some t.name) t.title t.description (some t.mime_type)
          t.icons t.annotations with
      | .ok r => .ok { resource := r, fnR := fun _ => result }
      | .error es => .error ⟨"ValidationError", renderErrors es⟩
  match attempt with
  | .ok r => .ok r
  | .error e => .error (creationError e)

/-- The operation `create_resource` again, paired with the number of producer
invocations the call performs: none when argument validation fails,
one as soon as the producer body runs. -/
def create_resource_counted (t : ResourceTemplate) (uri : String)
    (params : List (String × Value)) (context : Option Value) :
    Except Err FunctionResource × Nat :=
  match validateArgs t.fn_metadata.schemaParams params with
  | .error e => (.error (creationError e), 0)
  | .ok validated =>
    match t.fn.impl (validated ++ (contextSide t context).getD []) with
    | .error e => (.error (creationError e), 1)
    | .ok result =>
      match mkResource (some uri) (some t.name) t.title t.description (some t.mime_type)
          t.icons t.annotations with
      | .ok r => (.ok { resource := r, fnR := fun _ => result }, 1)
      | .error es => (.error (creationError ⟨"ValidationError", renderErrors es⟩), 1)

/-- Reading a materialized resource, paired with the number of producer
invocations it performs: the stored closure returns the captured value,
so none. -/
def read_counted (r : FunctionResource) : Value × Nat :=
  (r.fnR (), 0)

/-! ## Auxiliary predicates on compiled templates -/

/-- No `.` wildcard token: together with a successful tokenization this
says the template's literal text is free of regex metacharacters. -/
def noDot : List Tok → Bool
  | [] => true
  | Tok.dot :: _ => false
  | _ :: ts => noDot ts

/-- Every token is a literal character (no placeholder, no wildcard). -/
def allLit : List Tok → Bool
  | [] => true
  | Tok.lit _ :: ts => allLit ts
  | _ => false

/-- How many `/` characters a match of these tokens must consume when no
wildcard token is present: placeholders capture `[^/]+` and contribute
none, literal `/` tokens contribute one each. -/
def slashCapacity : List Tok → Nat
  | [] => 0
  | Tok.lit c :: ts => (if c = '/' then 1 else 0) + slashCapacity ts
  | Tok.dot :: ts => slashCapacity ts
  | Tok.ph _ :: ts => slashCapacity ts

/-! ## Sample producers and templates used by concrete witnesses -/

/-- A data parameter `city` that coerces strings and rejects anything
else. -/
def cityParam : Param :=
  { pname := "city"
    isContext := false
    coerce := fun v => match v with | Value.vstr s => some (Value.vstr s) | _ => none }

/-- A context parameter `ctx`: its declared type is the context marker,
and generic schema coercion would reject an opaque live object. -/
def ctxParam : Param :=
  { pname := "ctx"
    isContext := true
    coerce := fun v => match v with | Value.vopaque _ => none | w => some w }

/-- A producer with one data parameter and one context parameter. -/
def weatherProducer : Producer :=
  { fname := "get_weather"
    doc := some "Get weather."
    params := [cityParam, ctxParam]
    impl := fun args =>
      match List.lookup "city" args with
      | some (Value.vstr s) => .ok (Value.vstr ("weather in " ++ s))
      | _ => .error ⟨"KeyError", "city"⟩
    isAsyncFn := false }

/-- The template `from_function` builds from `weatherProducer`. -/
def weatherTemplate : ResourceTemplate :=
  { uri_template := "weather://{city}/current"
    name := "get_weather"
    title := none
    description := some "Get weather."
    mime_type := "text/plain"
    icons := none
    annotations := none
    fn := weatherProducer
    parameters := ["city"]
    context_kwarg := some "ctx"
    fn_metadata := ⟨[cityParam]⟩
    is_async := false }

/-- The resource `weatherTemplate.create_resource` materializes for
Paris. -/
def weatherRes : FunctionResource :=
  { resource :=
      { uri := "weather://paris/current"
        name := "get_weather"
        title := none
        description := some "Get weather."
        mime_type := "text/plain"
        icons := none
        annotations := none }
    fnR := fun _ => Value.vstr "weather in paris" }

/-- A parameterless producer that always succeeds. -/
def constProducer : Producer :=
  { fname := "const_fn"
    doc := none
    params := []
    impl := fun _ => .ok (Value.vstr "ok")
    isAsyncFn := false }

/-- A parameterless producer that always raises `KeyError("boom")`. -/
def failProducer : Producer :=
  { fname := "fail_fn"
    doc := none
    params := []
    impl := fun _ => .error ⟨"KeyError", "boom"⟩
    isAsyncFn := false }

/-- An anonymous producer (its declared name is the lambda sentinel). -/
def lambdaProducer : Producer :=
  { fname := "<lambda>"
    doc := none
    params := []
    impl := fun _ => .ok (Value.vstr "ok")
    isAsyncFn := false }

/-- A template over a given pattern, name and producer, with an empty
argument schema and no context parameter. -/
def mkSampleTemplate (ut : String) (nm : String) (p : Producer) : ResourceTemplate :=
  { uri_template := ut
    name := nm
    title := none
    description := none
    mime_type := "text/plain"
    icons := none
    annotations := none
    fn := p
    parameters := []
    context_kwarg := none
    fn_metadata := ⟨[]⟩
    is_async := false }

/-- Template whose pattern keeps a `.` wildcard after a placeholder. -/
def cx4Template : ResourceTemplate := mkSampleTemplate "{x}.." "cx4" constProducer

/-- Placeholder-free template whose literal text holds a `.` wildcard. -/
def cx6Template : ResourceTemplate := mkSampleTemplate "a.b" "cx6" constProducer

/-- Placeholder-free template over plain literal characters. -/
def litTemplate : ResourceTemplate := mkSampleTemplate "resource://fixed" "lit" constProducer

/-- A template whose producer always raises. -/
def failTemplate : ResourceTemplate := mkSampleTemplate "fail://x" "fail" failProducer

/-- A template that always succeeds and has no context parameter. -/
def okTemplate : ResourceTemplate := mkSampleTemplate "ok://x" "ok" constProducer

/-- A well-formed template whose `name` field is the empty string. -/
def emptyNameTemplate : ResourceTemplate := mkSampleTemplate "t://{x}" "" constProducer

/-! ## Helper lemmas -/

/-- A successful URL parse returns its input unchanged. -/
theorem parseAnyUrl_ok {s u : String} (h : parseAnyUrl s = .ok u) : u = s := by
  unfold parseAnyUrl at h
  split at h
  · injection h with h2
    exact h2.symm
  · exact absurd h (by simp)

/-- The validator `set_default_name` with a validated uri in scope never fails: it
keeps a nonempty name and falls back to the uri's string form. -/
theorem set_default_name_some (name : Option String) (u : String) :
    set_default_name name (some u) = .ok (defaultedName name u) := by
  cases name with
  | none => rfl
  | some s =>
    by_cases hs : s = ""
    · subst hs; rfl
    · simp [set_default_name, defaultedName, hs]

/-- Field content of a successfully constructed `Resource`. -/
theorem mkResource_ok_fields {uri : String} {name ttl ds mt : Option String}
    {ic : Option (List String)} {an : Option String} {r : Resource}
    (h : mkResource (some uri) name ttl ds mt ic an = .ok r) :
    r.uri = uri ∧ r.name = defaultedName name uri ∧
    r.title = ttl ∧ r.description = ds ∧ r.mime_type = mt.getD "text/plain" ∧
    r.icons = ic ∧ r.annotations = an := by
  simp only [mkResource] at h
  cases hp : parseAnyUrl uri with
  | error e => rw [hp] at h; simp at h
  | ok u =>
    have hu := parseAnyUrl_ok hp
    subst hu
    rw [hp] at h
    simp only [set_default_name_some] at h
    by_cases hm : validMimeType (mt.getD "text/plain")
    · rw [if_pos hm] at h
      simp only [Except.ok.injEq] at h
      subst h
      exact ⟨rfl, rfl, rfl, rfl, rfl, rfl, rfl⟩
    · rw [if_neg hm] at h
      simp at h

/-- With a parsable uri and a valid MIME type, `Resource` construction
succeeds. -/
theorem mkResource_ok_of_valid {uri : String} (name ttl ds : Option String)
    {mt : Option String} (ic : Option (List String)) (an : Option String)
    (hp : parseAnyUrl uri = .ok uri) (hm : validMimeType (mt.getD "text/plain") = true) :
    mkResource (some uri) name ttl ds mt ic an =
      .ok { uri := uri
            name := defaultedName name uri
            title := ttl
            description := ds
            mime_type := mt.getD "text/plain"
            icons := ic
            annotations := an } := by
  simp only [mkResource]
  rw [hp]
  simp only [set_default_name_some]
  rw [if_pos hm]

/-- The instrumented `create_resource` computes the same result as the
plain one. -/
theorem create_resource_counted_fst (t : ResourceTemplate) (uri : String)
    (params : List (String × Value)) (context : Option Value) :
    (create_resource_counted t uri params context).1 =
      t.create_resource uri params context := by
  unfold create_resource_counted ResourceTemplate.create_resource
    FuncMetadata.call_fn_with_arg_validation
  cases hv : validateArgs t.fn_metadata.schemaParams params with
  | error e => rfl
  | ok validated =>
    dsimp only
    cases hi : t.fn.impl (validated ++ (contextSide t context).getD []) with
    | error e => rfl
    | ok result =>
      dsimp only
      cases mkResource (some uri) (some t.name) t.title t.description (some t.mime_type)
          t.icons t.annotations with
      | ok r => rfl
      | error es => rfl

/-- Mapping a constant over `List.range` is `List.replicate`. -/
theorem map_const_range {α : Type} (v : α) (k : Nat) :
    (List.range k).map (fun _ => v) = List.replicate k v := by
  induction k with
  | zero => rfl
  | succ k ih =>
    rw [List.range_succ, List.map_append, ih, List.replicate_succ']
    rfl

/-! ## Claim C5 -/

/-- Claim C5: every template whose `uri_template` is
`weather://{city}/current` extracts `city = paris` from
`weather://paris/current`, and does not match `weather://paris`. -/
theorem C5_placeholder_extraction (t : ResourceTemplate)
    (h : t.uri_template = "weather://{city}/current") :
    t.matches "weather://paris/current" = some [("city", "paris")] ∧
    t.matches "weather://paris" = none := by
  unfold ResourceTemplate.matches
  rw [h]
  exact ⟨by decide, by decide⟩

theorem C5_witness :
    weatherTemplate.matches "weather://paris/current" = some [("city", "paris")] ∧
    weatherTemplate.matches "weather://paris" = none :=
  C5_placeholder_extraction weatherTemplate rfl

/-! ## Claim C2 -/

/-- Claim C2: when parameter validation or the producer fails during
`create_resource`, the call raises the single uniform kind `ValueError`
(a fresh error, not the one that was thrown) and its message contains the
original failure's message text. -/
theorem C2_uniform_creation_error (t : ResourceTemplate) (uri : String)
    (params : List (String × Value)) (context : Option Value) (e : Err)
    (hfail : t.fn_metadata.call_fn_with_arg_validation t.fn t.is_async params
        (contextSide t context) = .error e) :
    t.create_resource uri params context = .error (creationError e) ∧
    (creationError e).kind = "ValueError" ∧
    creationError e ≠ e ∧
    ∃ s1 s2 : String, (creationError e).msg = s1 ++ e.msg ++ s2 := by
  refine ⟨?_, rfl, ?_, "Error creating resource from template: ", "", ?_⟩
  · unfold ResourceTemplate.create_resource
    rw [hfail]
  · intro hcontra
    have h2 := congrArg Err.msg hcontra
    simp only [creationError] at h2
    have h3 := congrArg String.length h2
    rw [String.length_append] at h3
    have h4 : ("Error creating resource from template: " : String).length = 39 := by decide
    omega
  · simp [creationError]

theorem C2_witness :
    failTemplate.create_resource "fail://x" [] none =
      .error ⟨"ValueError", "Error creating resource from template: boom"⟩ ∧
    failTemplate.create_resource "fail://x" [] none ≠ .error ⟨"KeyError", "boom"⟩ := by
  have h := C2_uniform_creation_error failTemplate "fail://x" [] none
    ⟨"KeyError", "boom"⟩ rfl
  refine ⟨h.1, ?_⟩
  rw [h.1]
  intro hcontra
  exact h.2.2.1 (Except.error.inj hcontra)

/-! ## Claim C10 -/

/-- Claim C10: the exception handler encloses the construction of the
wrapping function-backed Resource as well, so a call where the producer
succeeds but the Resource construction fails (e.g. an invalid uri) raises
the same uniform creation error carrying the construction failure's
message, not the underlying validation exception. -/
theorem C10_wrapping_failures_uniform (t : ResourceTemplate) (uri : String)
    (params : List (String × Value)) (context : Option Value) (result : Value)
    (es : List Err)
    (hok : t.fn_metadata.call_fn_with_arg_validation t.fn t.is_async params
        (contextSide t context) = .ok result)
    (hbad : mkResource (some uri) (some t.name) t.title t.description (some t.mime_type)
        t.icons t.annotations = .error es) :
    t.create_resource uri params context =
      .error (creationError ⟨"ValidationError", renderErrors es⟩) ∧
    (creationError ⟨"ValidationError", renderErrors es⟩).kind = "ValueError" ∧
    ∃ s1 s2 : String,
      (creationError ⟨"ValidationError", renderErrors es⟩).msg = s1 ++ renderErrors es ++ s2 := by
  refine ⟨?_, rfl, "Error creating resource from template: ", "", ?_⟩
  · unfold ResourceTemplate.create_resource
    rw [hok]
    dsimp only
    rw [hbad]
  · simp [creationError]

theorem C10_witness :
    okTemplate.create_resource "not a url" [] none =
      .error ⟨"ValueError",
        "Error creating resource from template: Input should be a valid URL"⟩ :=
  (C10_wrapping_failures_uniform okTemplate "not a url" [] none (Value.vstr "ok")
    [⟨"ValidationError", "Input should be a valid URL"⟩] rfl rfl).1

/-! ## Claim C7 -/

/-- Claim C7 counterexample: the producer `get_weather` is not anonymous
and a name is explicitly supplied, yet `from_function` fails on the name
resolution step — the explicit name happens to equal the lambda sentinel,
and the sentinel check runs on the resolved name, not on the producer's
declared name.  This refutes "an explicitly supplied `name` always wins
and construction does not fail on this step". -/
theorem C7_counterexample :
    weatherProducer.fname = "get_weather" ∧
    ResourceTemplate.from_function weatherProducer "weather://{city}/current"
      (some "<lambda>") none none none none none none =
      .error ⟨"ValueError", "You must provide a name for lambda functions"⟩ :=
  ⟨rfl, rfl⟩

/-- Claim C7 (amended): `from_function` fails with the name-required
construction error exactly when the resolved name — the explicit name if
truthy, else the producer's declared name — is the lambda sentinel.  In
particular an anonymous producer with no explicit name is rejected; an
explicit nonempty name other than the sentinel wins and this step cannot
fail; an empty explicit name behaves as if no name was supplied. -/
theorem C7_amended :
    (∀ (fn : Producer) ut ttl ds mt ic an ck, fn.fname = "<lambda>" →
      ResourceTemplate.from_function fn ut none ttl ds mt ic an ck =
        .error ⟨"ValueError", "You must provide a name for lambda functions"⟩) ∧
    (∀ (fn : Producer) ut s ttl ds mt ic an ck, s ≠ "" → s ≠ "<lambda>" →
      ∃ t, ResourceTemplate.from_function fn ut (some s) ttl ds mt ic an ck = .ok t ∧
        t.name = s) ∧
    (∀ (fn : Producer) ut ttl ds mt ic an ck,
      ResourceTemplate.from_function fn ut (some "") ttl ds mt ic an ck =
        ResourceTemplate.from_function fn ut none ttl ds mt ic an ck) := by
  refine ⟨?_, ?_, ?_⟩
  · intro fn ut ttl ds mt ic an ck hfn
    unfold ResourceTemplate.from_function
    simp [truthy, hfn]
  · intro fn ut s ttl ds mt ic an ck hs hl
    unfold ResourceTemplate.from_function
    simp only [truthy, if_neg hs, Option.getD_some]
    rw [if_neg hl]
    exact ⟨_, rfl, rfl⟩
  · intro fn ut ttl ds mt ic an ck
    rfl

theorem C7_witness :
    ResourceTemplate.from_function lambdaProducer "t://x" none none none none none none
      none = .error ⟨"ValueError", "You must provide a name for lambda functions"⟩ ∧
    ∃ t, ResourceTemplate.from_function lambdaProducer "t://x" (some "reader") none none
      none none none none = .ok t ∧ t.name = "reader" :=
  ⟨C7_amended.1 lambdaProducer "t://x" none none none none none none rfl,
   C7_amended.2.1 lambdaProducer "t://x" "reader" none none none none none none
     (by decide) (by decide)⟩

/-! ## Claim C8 -/

/-- Claim C8: constructing a Resource with an empty or absent `name` and
a supplied (valid) `uri` defaults `name` to the uri's string form; with
both `name` and `uri` absent, construction fails and the collected errors
contain the name-or-uri-required error. -/
theorem C8_name_defaulting :
    (∀ uri u : String, ∀ ttl ds mt : Option String, ∀ ic : Option (List String),
      ∀ an : Option String,
      parseAnyUrl uri = .ok u → validMimeType (mt.getD "text/plain") = true →
      ∃ r : Resource, mkResource (some uri) none ttl ds mt ic an = .ok r ∧
        mkResource (some uri) (some "") ttl ds mt ic an = .ok r ∧
        r.name = u ∧ r.uri = u) ∧
    (∀ name : Option String, ∀ ttl ds mt : Option String, ∀ ic : Option (List String),
      ∀ an : Option String, (name = none ∨ name = some "") →
      ∃ es, mkResource none name ttl ds mt ic an = .error es ∧
        (⟨"ValueError", "Either name or uri must be provided"⟩ : Err) ∈ es) := by
  constructor
  · intro uri u ttl ds mt ic an hp hm
    have hu := parseAnyUrl_ok hp
    subst hu
    refine ⟨_, mkResource_ok_of_valid none ttl ds ic an hp hm, ?_, rfl, rfl⟩
    rw [mkResource_ok_of_valid (some "") ttl ds ic an hp hm]
    rfl
  · intro name ttl ds mt ic an hname
    simp only [mkResource]
    rcases hname with h | h <;> subst h <;>
      by_cases hm : validMimeType (mt.getD "text/plain") <;>
        simp [set_default_name, errList, hm]

theorem C8_witness :
    (∃ r : Resource,
      mkResource (some "file:///a.txt") none none none none none none = .ok r ∧
      mkResource (some "file:///a.txt") (some "") none none none none none = .ok r ∧
      r.name = "file:///a.txt" ∧ r.uri = "file:///a.txt") ∧
    ∃ es, mkResource none none none none none none none = .error es ∧
      (⟨"ValueError", "Either name or uri must be provided"⟩ : Err) ∈ es :=
  ⟨C8_name_defaulting.1 "file:///a.txt" "file:///a.txt" none none none none none
      rfl (by decide),
   C8_name_defaulting.2 none none none none none none (Or.inl rfl)⟩

/-! ## Claim C9 -/

/-- Claim C9 counterexample: a template whose `name` field is the empty
string.  `create_resource` succeeds, but the returned resource's `name`
is the uri's string form (the `set_default_name` validator replaces the
falsy empty string), not the template's `name` field. -/
theorem C9_counterexample :
    emptyNameTemplate.name = "" ∧
    (emptyNameTemplate.create_resource "t://x" [] none).map
      (fun r => r.resource.name) = .ok "t://x" :=
  ⟨rfl, rfl⟩

/-- Claim C9 (amended): for every successful `create_resource` call the
returned resource's `uri` is the supplied uri and its `title`,
`description`, `mime_type`, `icons` and `annotations` are exactly the
template's field values; its `name` is the template's `name` when that is
nonempty, and the uri's string form when the template's `name` is the
empty string. -/
theorem C9_amended (t : ResourceTemplate) (uri : String)
    (params : List (String × Value)) (context : Option Value) (r : FunctionResource)
    (h : t.create_resource uri params context = .ok r) :
    r.resource.uri = uri ∧
    r.resource.name = (if t.name = "" then uri else t.name) ∧
    r.resource.title = t.title ∧
    r.resource.description = t.description ∧
    r.resource.mime_type = t.mime_type ∧
    r.resource.icons = t.icons ∧
    r.resource.annotations = t.annotations := by
  unfold ResourceTemplate.create_resource at h
  cases hcall : t.fn_metadata.call_fn_with_arg_validation t.fn t.is_async params
      (contextSide t context) with
  | error e => rw [hcall] at h; simp at h
  | ok result =>
    rw [hcall] at h
    dsimp only at h
    cases hmk : mkResource (some uri) (some t.name) t.title t.description
        (some t.mime_type) t.icons t.annotations with
    | error es => rw [hmk] at h; simp at h
    | ok r0 =>
      rw [hmk] at h
      simp only [Except.ok.injEq] at h
      subst h
      obtain ⟨h1, h2, h3, h4, h5, h6, h7⟩ := mkResource_ok_fields hmk
      exact ⟨h1, h2, h3, h4, h5, h6, h7⟩

theorem C9_witness :
    weatherRes.resource.uri = "weather://paris/current" ∧
    weatherRes.resource.name = "get_weather" ∧
    weatherRes.resource.mime_type = "text/plain" := by
  have h := C9_amended weatherTemplate "weather://paris/current"
    [("city", Value.vstr "paris")] none weatherRes rfl
  exact ⟨h.1, by simpa using h.2.1, h.2.2.2.2.1⟩

/-! ## Claim C3 -/

/-- Claim C3: a successful `create_resource` call invokes the producer
exactly once — the instrumented variant computes the same result and
counts one invocation — and the returned resource's `read` yields the
already-computed producer result on any number of repeated calls, the
stored closure performing no further producer invocation. -/
theorem C3_single_invocation (t : ResourceTemplate) (uri : String)
    (params : List (String × Value)) (context : Option Value) (r : FunctionResource)
    (h : t.create_resource uri params context = .ok r) :
    (create_resource_counted t uri params context).1 =
      t.create_resource uri params context ∧
    (create_resource_counted t uri params context).2 = 1 ∧
    (∃ validated, validateArgs t.fn_metadata.schemaParams params = .ok validated ∧
      t.fn.impl (validated ++ (contextSide t context).getD []) = .ok r.read) ∧
    read_counted r = (r.read, 0) ∧
    ∀ k : Nat, (List.range k).map (fun _ => r.read) = List.replicate k r.read := by
  have hfst := create_resource_counted_fst t uri params context
  unfold ResourceTemplate.create_resource FuncMetadata.call_fn_with_arg_validation at h
  cases hv : validateArgs t.fn_metadata.schemaParams params with
  | error e => rw [hv] at h; dsimp only at h; simp at h
  | ok validated =>
    rw [hv] at h
    dsimp only at h
    cases hi : t.fn.impl (validated ++ (contextSide t context).getD []) with
    | error e => rw [hi] at h; dsimp only at h; simp at h
    | ok result =>
      rw [hi] at h
      dsimp only at h
      cases hmk : mkResource (some uri) (some t.name) t.title t.description
          (some t.mime_type) t.icons t.annotations with
      | error es => rw [hmk] at h; dsimp only at h; simp at h
      | ok r0 =>
        rw [hmk] at h
        dsimp only at h
        simp only [Except.ok.injEq] at h
        subst h
        refine ⟨hfst, ?_, ⟨validated, rfl, hi⟩, rfl, fun k => map_const_range _ k⟩
        unfold create_resource_counted
        rw [hv]
        dsimp only
        rw [hi]
        dsimp only
        rw [hmk]

theorem C3_witness :
    (create_resource_counted weatherTemplate "weather://paris/current"
      [("city", Value.vstr "paris")] none).2 = 1 ∧
    read_counted weatherRes = (weatherRes.read, 0) ∧
    (List.range 3).map (fun _ => weatherRes.read) =
      List.replicate 3 weatherRes.read := by
  have h := C3_single_invocation weatherTemplate "weather://paris/current"
    [("city", Value.vstr "paris")] none weatherRes rfl
  exact ⟨h.2.1, h.2.2.2.1, h.2.2.2.2 3⟩

/-! ## Claim C1 -/

/-- A template built by `from_function` stores as `parameters` the schema
keys of the producer's signature minus the resolved context parameter. -/
theorem from_function_ok_parameters {fn : Producer} {ut : String}
    {nm ttl ds mt : Option String} {ic : Option (List String)} {an ck0 : Option String}
    {t : ResourceTemplate}
    (hff : ResourceTemplate.from_function fn ut nm ttl ds mt ic an ck0 = .ok t) :
    t.parameters = (func_metadata fn
      (match t.context_kwarg with | some k => [k] | none => [])).schemaKeys := by
  simp only [ResourceTemplate.from_function] at hff
  by_cases hname : (truthy nm).getD fn.fname = "<lambda>"
  · rw [if_pos hname] at hff
    exact absurd hff (by simp)
  · rw [if_neg hname] at hff
    simp only [Except.ok.injEq] at hff
    subst hff
    cases ck0 <;> rfl

/-- A valid absolute uri parses to itself. -/
theorem parseAnyUrl_of_valid {uri : String} (h : isAbsoluteUri uri = true) :
    parseAnyUrl uri = .ok uri := by
  unfold parseAnyUrl
  rw [if_pos h]

/-- Claim C1: for a template built by `from_function` whose resolved
context parameter is `k`: (1) `k` is not among the `parameters` schema
property names; (2) `create_resource` with any context value equals a
pipeline in which that value occurs only as the untouched out-of-band
entry `(k, ctx)` appended to the validated arguments after validation —
it is never subjected to schema validation or coercion; and (3) with any
context value (in particular a non-serializable opaque object) the call
succeeds whenever validation of the remaining parameters, the producer
and the resource construction succeed. -/
theorem C1_context_bypass (fn : Producer) (ut : String)
    (nm ttl ds mt : Option String) (ic : Option (List String)) (an ck0 : Option String)
    (t : ResourceTemplate) (k : String)
    (hff : ResourceTemplate.from_function fn ut nm ttl ds mt ic an ck0 = .ok t)
    (hk : t.context_kwarg = some k) :
    k ∉ t.parameters ∧
    (∀ (ctx : Value) (uri : String) (params : List (String × Value)),
      t.create_resource uri params (some ctx) =
        match validateArgs t.fn_metadata.schemaParams params with
        | .error e => .error (creationError e)
        | .ok validated =>
          match t.fn.impl (validated ++ [(k, ctx)]) with
          | .error e => .error (creationError e)
          | .ok result =>
            match mkResource (some uri) (some t.name) t.title t.description
                (some t.mime_type) t.icons t.annotations with
            | .ok r => .ok { resource := r, fnR := fun _ => result }
            | .error es => .error (creationError ⟨"ValidationError", renderErrors es⟩)) ∧
    (∀ (ctx : Value) (uri : String) (params : List (String × Value))
        (validated : List (String × Value)) (result : Value),
      validateArgs t.fn_metadata.schemaParams params = .ok validated →
      t.fn.impl (validated ++ [(k, ctx)]) = .ok result →
      isAbsoluteUri uri = true → validMimeType t.mime_type = true →
      ∃ r, t.create_resource uri params (some ctx) = .ok r ∧ r.read = result) := by
  have hside : ∀ ctx : Value, contextSide t (some ctx) = some [(k, ctx)] := by
    intro ctx
    unfold contextSide
    rw [hk]
    rfl
  have heq : ∀ (ctx : Value) (uri : String) (params : List (String × Value)),
      t.create_resource uri params (some ctx) =
        match validateArgs t.fn_metadata.schemaParams params with
        | .error e => .error (creationError e)
        | .ok validated =>
          match t.fn.impl (validated ++ [(k, ctx)]) with
          | .error e => .error (creationError e)
          | .ok result =>
            match mkResource (some uri) (some t.name) t.title t.description
                (some t.mime_type) t.icons t.annotations with
            | .ok r => .ok { resource := r, fnR := fun _ => result }
            | .error es => .error (creationError ⟨"ValidationError", renderErrors es⟩) := by
    intro ctx uri params
    unfold ResourceTemplate.create_resource FuncMetadata.call_fn_with_arg_validation
    rw [hside ctx]
    cases hv : validateArgs t.fn_metadata.schemaParams params with
    | error e => rfl
    | ok validated =>
      dsimp only
      simp only [Option.getD_some]
      cases hi : t.fn.impl (validated ++ [(k, ctx)]) with
      | error e => rfl
      | ok result =>
        dsimp only
        cases hmk : mkResource (some uri) (some t.name) t.title t.description
            (some t.mime_type) t.icons t.annotations with
        | ok r => rfl
        | error es => rfl
  refine ⟨?_, heq, ?_⟩
  · have hpar := from_function_ok_parameters hff
    rw [hk] at hpar
    rw [hpar]
    intro hmem
    simp only [func_metadata, FuncMetadata.schemaKeys, List.mem_map,
      List.mem_filter] at hmem
    obtain ⟨p, ⟨hp, hcond⟩, hpk⟩ := hmem
    rw [hpk] at hcond
    simp at hcond
  · intro ctx uri params validated result hv hi hu hm
    rw [heq ctx uri params, hv]
    dsimp only
    rw [hi]
    dsimp only
    rw [mkResource_ok_of_valid (some t.name) t.title t.description t.icons t.annotations
      (parseAnyUrl_of_valid hu) (by simpa using hm)]
    exact ⟨_, rfl, rfl⟩

theorem C1_witness :
    "ctx" ∉ weatherTemplate.parameters ∧
    ctxParam.coerce (Value.vopaque 7) = none ∧
    ∃ r, weatherTemplate.create_resource "weather://paris/current"
      [("city", Value.vstr "paris")] (some (Value.vopaque 7)) = .ok r ∧
      r.read = Value.vstr "weather in paris" := by
  have h := C1_context_bypass weatherProducer "weather://{city}/current" none none none
    none none none none weatherTemplate "ctx" rfl rfl
  exact ⟨h.1, rfl,
    h.2.2 (Value.vopaque 7) "weather://paris/current" [("city", Value.vstr "paris")]
      [("city", Value.vstr "paris")] (Value.vstr "weather in paris") rfl rfl rfl rfl⟩

/-! ## Claim C4 -/

/-- A list that does not contain a character has count zero for it. -/
theorem count_eq_zero_of_contains_false {cs : List Char} {c : Char}
    (h : cs.contains c = false) : cs.count c = 0 := by
  rw [List.count_eq_zero]
  simpa using h

/-- Inversion of the placeholder backtracking search: a successful result
comes from some nonempty slash-free span followed by a successful match
of the remaining tokens. -/
theorem phSplits_some {n : String} {cont : List Char → Option (List (String × String))}
    {cs : List Char} {k : Nat} {m : List (String × String)}
    (h : phSplits n cont cs k = some m) :
    ∃ j, 1 ≤ j ∧ j ≤ k ∧ (cs.take j).contains '/' = false ∧
      ∃ m2, cont (cs.drop j) = some m2 ∧ m = (n, String.mk (cs.take j)) :: m2 := by
  induction k with
  | zero => exact absurd h (by simp [phSplits])
  | succ k ih =>
    simp only [phSplits] at h
    by_cases hc : (cs.take (k + 1)).contains '/'
    · rw [if_pos hc] at h
      obtain ⟨j, h1, h2, h3, m2, h4, h5⟩ := ih h
      exact ⟨j, h1, Nat.le_succ_of_le h2, h3, m2, h4, h5⟩
    · rw [if_neg hc] at h
      cases hcont : cont (cs.drop (k + 1)) with
      | some m2 =>
        rw [hcont] at h
        injection h with h6
        exact ⟨k + 1, by omega, Nat.le_refl _, by simpa using hc, m2, hcont, h6.symm⟩
      | none =>
        rw [hcont] at h
        obtain ⟨j, h1, h2, h3, m2, h4, h5⟩ := ih h
        exact ⟨j, h1, Nat.le_succ_of_le h2, h3, m2, h4, h5⟩

/-- Without wildcard tokens, a match consumes exactly as many `/`
characters as the template's literal text contains: placeholders capture
`[^/]+`, so each `/` of the URI is consumed by a literal `/` token. -/
theorem matchToks_slash_count {ts : List Tok} (hnd : noDot ts = true) :
    ∀ {cs : List Char} {m : List (String × String)},
    matchToks ts cs = some m → cs.count '/' = slashCapacity ts := by
  induction ts with
  | nil =>
    intro cs m h
    simp only [matchToks] at h
    cases cs with
    | nil => rfl
    | cons d cs2 => simp at h
  | cons tk ts ih =>
    cases tk with
    | lit c =>
      have hnd2 : noDot ts = true := by simpa [noDot] using hnd
      intro cs m h
      simp only [matchToks] at h
      cases cs with
      | nil => simp at h
      | cons d cs2 =>
        dsimp only at h
        by_cases hcd : c = d
        · rw [if_pos hcd] at h
          subst hcd
          have h2 := ih hnd2 h
          rw [List.count_cons, h2]
          simp only [slashCapacity]
          by_cases h3 : c = '/' <;> simp [h3, Nat.add_comm]
        · rw [if_neg hcd] at h
          simp at h
    | dot => intro cs m h; simp [noDot] at hnd
    | ph n =>
      have hnd2 : noDot ts = true := by simpa [noDot] using hnd
      intro cs m h
      simp only [matchToks] at h
      obtain ⟨j, _h1, _h2, h3, m2, h4, _h5⟩ := phSplits_some h
      have hc1 : (cs.take j).count '/' = 0 := count_eq_zero_of_contains_false h3
      have hc2 := ih hnd2 h4
      have hsplit : cs.take j ++ cs.drop j = cs := List.take_append_drop j cs
      calc cs.count '/' = (cs.take j ++ cs.drop j).count '/' := by rw [hsplit]
        _ = (cs.take j).count '/' + (cs.drop j).count '/' := List.count_append _ _ _
        _ = slashCapacity (Tok.ph n :: ts) := by
            rw [hc1, hc2]
            simp [slashCapacity]

/-- The slash-count invariant carries over to the `$`-with-trailing-
newline variant of the anchored match. -/
theorem matchChars_slash_count {ts : List Tok} (hnd : noDot ts = true)
    {cs : List Char} {m : List (String × String)} (h : matchChars ts cs = some m) :
    cs.count '/' = slashCapacity ts := by
  unfold matchChars at h
  cases h1 : matchToks ts cs with
  | some m1 => exact matchToks_slash_count hnd h1
  | none =>
    rw [h1] at h
    dsimp only at h
    cases h2 : cs.getLast? with
    | none => rw [h2] at h; simp at h
    | some c =>
      rw [h2] at h
      dsimp only at h
      by_cases hc : c = '\n'
      · rw [if_pos hc] at h
        subst hc
        have h3 := matchToks_slash_count hnd h
        have h4 : cs ≠ [] := by
          intro hnil
          rw [hnil] at h2
          simp at h2
        have h5 : cs.getLast h4 = '\n' := by
          have h7 := List.getLast?_eq_getLast cs h4
          rw [h2] at h7
          exact (Option.some.inj h7).symm
        have h6 : cs.dropLast ++ ['\n'] = cs := by
          rw [← h5]
          exact List.dropLast_append_getLast h4
        calc cs.count '/' = (cs.dropLast ++ ['\n']).count '/' := by rw [h6]
          _ = cs.dropLast.count '/' + (['\n'] : List Char).count '/' :=
              List.count_append _ _ _
          _ = slashCapacity ts := by rw [h3]; simp
      · rw [if_neg hc] at h
        simp at h

/-- Claim C4 counterexample: the template `{x}..` — its `..` literal text
survives as regex wildcards — matches `abc`, and still matches after the
extra trailing segment `/d` is appended, because an unescaped `.` in the
compiled pattern can consume the `/`.  This refutes "for every URI formed
by appending an extra trailing segment beyond the template, `matches`
returns absence". -/
theorem C4_counterexample :
    cx4Template.uri_template = "{x}.." ∧
    cx4Template.matches "abc" = some [("x", "a")] ∧
    cx4Template.matches ("abc" ++ "/d") = some [("x", "abc")] :=
  ⟨rfl, by decide, by decide⟩

/-- Claim C4 (amended): for templates whose literal text is free of regex
metacharacters (tokenization succeeds with no wildcard token), the
anchored match never extends past the template: appending `/` and any
further text to a matching URI yields absence. -/
theorem C4_amended (t : ResourceTemplate) (ts : List Tok)
    (htok : tokenizeTemplate t.uri_template = some ts) (hnd : noDot ts = true)
    (u s : String) (m : List (String × String)) (hm : t.matches u = some m) :
    t.matches (u ++ "/" ++ s) = none := by
  unfold ResourceTemplate.matches matchesTemplate at hm ⊢
  rw [htok] at hm ⊢
  dsimp only at hm ⊢
  cases h2 : matchChars ts (u ++ "/" ++ s).data with
  | none => rfl
  | some m2 =>
    exfalso
    have hc1 := matchChars_slash_count hnd hm
    have hc2 := matchChars_slash_count hnd h2
    rw [String.data_append, String.data_append] at hc2
    have hslash : (("/" : String)).data = ['/'] := rfl
    rw [hslash, List.count_append, List.count_append] at hc2
    have hone : (['/'] : List Char).count '/' = 1 := rfl
    rw [hone, hc1] at hc2
    omega

theorem C4_witness :
    weatherTemplate.matches ("weather://paris/current" ++ "/" ++ "extra") = none :=
  C4_amended weatherTemplate
    ("weather://".data.map Tok.lit ++ [Tok.ph "city"] ++ "/current".data.map Tok.lit)
    (by decide) (by decide) "weather://paris/current" "extra" [("city", "paris")]
    (by decide)

/-! ## Claim C6 -/

/-- Tokenization that starts inside a placeholder produces a placeholder
token first when it succeeds. -/
theorem tokenizeGo_ph_head : ∀ (cs : List Char) (acc : List Char) (ts : List Tok),
    tokenizeGo (some acc) cs = some ts → ∃ nm ts2, ts = Tok.ph nm :: ts2 := by
  intro cs
  induction cs with
  | nil => intro acc ts h; exact absurd h (by simp [tokenizeGo])
  | cons c cs ih =>
    intro acc ts h
    simp only [tokenizeGo] at h
    by_cases hc : c = '}'
    · rw [if_pos hc] at h
      by_cases hid : isIdent (String.mk acc.reverse)
      · rw [if_pos hid] at h
        cases h3 : tokenizeGo none cs with
        | none => rw [h3] at h; simp at h
        | some ts0 =>
          rw [h3] at h
          simp only [Option.map_some'] at h
          exact ⟨String.mk acc.reverse, ts0, (Option.some.inj h).symm⟩
      · rw [if_neg hid] at h
        simp at h
    · rw [if_neg hc] at h
      exact ih _ _ h

/-- A successfully tokenized template whose tokens are all literal
characters is exactly the literal tokenization of its text. -/
theorem tokenizeGo_allLit : ∀ (l : List Char) (ts : List Tok),
    tokenizeGo none l = some ts → allLit ts = true → ts = l.map Tok.lit := by
  intro l
  induction l with
  | nil =>
    intro ts h _
    simp only [tokenizeGo] at h
    exact (Option.some.inj h).symm
  | cons c cs ih =>
    intro ts h hall
    simp only [tokenizeGo] at h
    by_cases h1 : c = '{'
    · rw [if_pos h1] at h
      obtain ⟨nm, ts2, rfl⟩ := tokenizeGo_ph_head cs [] ts h
      simp [allLit] at hall
    · rw [if_neg h1] at h
      by_cases h2 : c = '}'
      · rw [if_pos h2] at h
        simp at h
      · rw [if_neg h2] at h
        by_cases h3 : c = '.'
        · rw [if_pos h3] at h
          cases h4 : tokenizeGo none cs with
          | none => rw [h4] at h; simp at h
          | some ts0 =>
            rw [h4] at h
            simp only [Option.map_some'] at h
            rw [← Option.some.inj h] at hall
            simp [allLit] at hall
        · rw [if_neg h3] at h
          by_cases h4 : isRegexSpecial c
          · rw [if_pos h4] at h
            simp at h
          · rw [if_neg h4] at h
            cases h5 : tokenizeGo none cs with
            | none => rw [h5] at h; simp at h
            | some ts0 =>
              rw [h5] at h
              simp only [Option.map_some'] at h
              have h6 : ts = Tok.lit c :: ts0 := (Option.some.inj h).symm
              subst h6
              have hall2 : allLit ts0 = true := by simpa [allLit] using hall
              rw [List.map_cons, ih ts0 h5 hall2]

/-- Matching a list of literal tokens succeeds exactly on the identical
character list, with an empty capture mapping. -/
theorem matchToks_map_lit (l : List Char) : ∀ cs : List Char,
    matchToks (l.map Tok.lit) cs = if cs = l then some [] else none := by
  induction l with
  | nil =>
    intro cs
    cases cs with
    | nil => rfl
    | cons d cs2 => simp [matchToks]
  | cons c l ih =>
    intro cs
    cases cs with
    | nil => simp [matchToks]
    | cons d cs2 =>
      simp only [List.map_cons, matchToks]
      by_cases hcd : c = d
      · subst hcd
        rw [if_pos rfl, ih cs2]
        by_cases h2 : cs2 = l
        · subst h2
          simp
        · rw [if_neg h2, if_neg (fun hx => h2 (List.cons.inj hx).2)]
      · rw [if_neg hcd]
        rw [if_neg (fun hx => hcd ((List.cons.inj hx).1).symm)]

/-- The anchored match of a literal-only template accepts exactly the
template text itself, or the template text with one trailing newline
(Python's `$`), with an empty capture mapping. -/
theorem matchChars_map_lit (l : List Char) (cs : List Char) :
    matchChars (l.map Tok.lit) cs =
      if cs = l ∨ cs = l ++ ['\n'] then some [] else none := by
  unfold matchChars
  rw [matchToks_map_lit]
  by_cases h1 : cs = l
  · rw [if_pos h1, if_pos (Or.inl h1)]
  · rw [if_neg h1]
    dsimp only
    cases h2 : cs.getLast? with
    | none =>
      have hnil : cs = [] := by simpa using h2
      subst hnil
      rw [if_neg]
      intro hd
      rcases hd with hd | hd
      · exact h1 hd
      · exact absurd hd.symm (List.append_ne_nil_of_right_ne_nil l (by simp))
    | some c =>
      dsimp only
      by_cases hc : c = '\n'
      · subst hc
        rw [if_pos rfl, matchToks_map_lit]
        have h4 : cs ≠ [] := by
          intro hnil
          rw [hnil] at h2
          simp at h2
        have h5 : cs.getLast h4 = '\n' := by
          have h7 := List.getLast?_eq_getLast cs h4
          rw [h2] at h7
          exact (Option.some.inj h7).symm
        have h6 : cs.dropLast ++ ['\n'] = cs := by
          rw [← h5]
          exact List.dropLast_append_getLast h4
        by_cases h7 : cs.dropLast = l
        · rw [if_pos h7, if_pos (Or.inr (by rw [← h6, h7]))]
        · rw [if_neg h7, if_neg]
          intro hd
          rcases hd with hd | hd
          · exact h1 hd
          · exact h7 (by
              have h8 : (l ++ ['\n']).dropLast = l := by simp
              rw [hd, h8])
      · rw [if_neg hc, if_neg]
        intro hd
        rcases hd with hd | hd
        · exact h1 hd
        · have h8 : cs.getLast? = some '\n' := by
            rw [hd]
            simp [List.getLast?_append]
          rw [h2] at h8
          exact hc (Option.some.inj h8)

/-- Claim C6 counterexample: the placeholder-free template `a.b` matches
the URI `axb`, which differs from the template text — the unescaped `.`
survives as a regex wildcard.  This refutes "matches(uri) succeeds if and
only if the candidate URI is exactly equal to the `uri_template`
string". -/
theorem C6_counterexample :
    cx6Template.uri_template = "a.b" ∧
    ("a.b".data.all (fun c => !(c = '{') && !(c = '}'))) = true ∧
    cx6Template.matches "axb" = some [] ∧ "axb" ≠ "a.b" :=
  ⟨rfl, by decide, by decide, by decide⟩

/-- Claim C6 (amended): a template with no placeholder whose text is also
free of regex metacharacters matches exactly the literal template text —
up to Python's `$` also accepting one trailing newline — and nothing
else. -/
theorem C6_amended (t : ResourceTemplate) (ts : List Tok)
    (htok : tokenizeTemplate t.uri_template = some ts) (hall : allLit ts = true)
    (uri : String) :
    t.matches uri =
      if uri = t.uri_template ∨ uri = t.uri_template ++ "\n" then some [] else none := by
  have hgo : tokenizeGo none t.uri_template.data = some ts := by
    unfold tokenizeTemplate at htok
    cases hg : tokenizeGo none t.uri_template.data with
    | none => rw [hg] at htok; simp at htok
    | some ts0 =>
      rw [hg] at htok
      dsimp only at htok
      by_cases hn : (tokNames ts0).Nodup
      · rw [if_pos hn] at htok
        exact htok
      · rw [if_neg hn] at htok
        simp at htok
  have hts := tokenizeGo_allLit t.uri_template.data ts hgo hall
  unfold ResourceTemplate.matches matchesTemplate
  rw [htok]
  dsimp only
  rw [hts, matchChars_map_lit]
  have hiff : (uri.data = t.uri_template.data ∨ uri.data = t.uri_template.data ++ ['\n'])
      ↔ (uri = t.uri_template ∨ uri = t.uri_template ++ "\n") := by
    constructor
    · intro hd
      rcases hd with hd | hd
      · exact Or.inl (String.ext hd)
      · refine Or.inr (String.ext ?_)
        rw [String.data_append, hd]
    · intro hd
      rcases hd with hd | hd
      · exact Or.inl (congrArg String.data hd)
      · refine Or.inr ?_
        rw [hd, String.data_append]
  rw [if_congr hiff rfl rfl]

theorem C6_witness :
    litTemplate.matches "resource://fixed" = some [] ∧
    litTemplate.matches "resource://fixedX" = none := by
  have h := C6_amended litTemplate ("resource://fixed".data.map Tok.lit) (by decide)
    (by decide)
  have hcond : "resource://fixed" = litTemplate.uri_template ∨
      "resource://fixed" = litTemplate.uri_template ++ "\n" := Or.inl rfl
  have hcond2 : ¬("resource://fixedX" = litTemplate.uri_template ∨
      "resource://fixedX" = litTemplate.uri_template ++ "\n") := by decide
  constructor
  · rw [h "resource://fixed", if_pos hcond]
  · rw [h "resource://fixedX", if_neg hcond2]

end Mcp

